import Mathlib

/-!
# process-exporter: the rule matcher (package `config`) and start-up (`main`)

A shallow embedding of `src/config/config.go` and of the start-up path of
`src/cmd/process-exporter/main.go`, followed by the group accumulator of the
collector, which is not among the source files and is modelled from section
4.3 of the specification.

Go strings are embedded as Lean `String`; the only string operations the
matcher performs are equality, `strings.Join` and `strings.Contains`, which
are embedded on the character sequence of the string.  Go `int` values are
embedded as `Int`; the matcher only compares them for equality.
-/

namespace ProcessExporter

/-! ## Data model -/

/-- Cumulative resource counters of one process (CPU time and I/O volume). -/
structure Counts where
  cpuUser : Nat
  cpuSystem : Nat
  readBytes : Nat
  writeBytes : Nat
  deriving DecidableEq, Repr

/-- Modelled from the spec: the type `common.ProcAttributes` (its declaration
is not part of the two source files).  One kernel process at one instant:
`PID`, `PPID`, `StartTime`, `Name` (truncated command name), `Cmdline`
(ordered argument strings), `Username`, plus raw counters and gauges. -/
structure ProcAttributes where
  PID : Int
  PPID : Int
  StartTime : Nat
  Name : String
  Cmdline : List String
  Username : String
  counters : Counts
  residentBytes : Nat
  openFDs : Nat
  numThreads : Nat
  deriving DecidableEq, Repr

/-- The struct `Matcher` of `config.go`. -/
structure Matcher where
  Name : String
  Comm : String
  User : String
  Ppid : Int
  Cmdline : String
  deriving DecidableEq, Repr

/-- The struct `Config` of `config.go`. -/
structure Config where
  Matchers : List Matcher
  deriving DecidableEq, Repr

/-! ## The Go `strings` functions used by the matcher -/

/-- Go `strings.Join(elems, sep)`: the elements concatenated with `sep`
between consecutive elements. -/
def stringsJoin : List String → String → String
  | [], _ => ""
  | [a], _ => a
  | a :: b :: rest, sep => a ++ sep ++ stringsJoin (b :: rest) sep

/-- The index of the first occurrence of `sub` in `s` counted from offset `i`,
or `-1` when there is none. -/
def indexFrom (sub : List Char) : List Char → Int → Int
  | [], i => if sub.isPrefixOf [] then i else -1
  | c :: t, i => if sub.isPrefixOf (c :: t) then i else indexFrom sub t (i + 1)

/-- Go `strings.Index(s, substr)`: the index of the first instance of
`substr` in `s`, or `-1` if `substr` is not present in `s`. -/
def stringsIndex (s substr : String) : Int :=
  indexFrom substr.toList s.toList 0

/-- Go `strings.Contains(s, substr)`, which is `Index(s, substr) >= 0`. -/
def stringsContains (s substr : String) : Bool :=
  decide (stringsIndex s substr ≥ 0)

/-! ## The matcher -/

/-- The method `(*Matcher).MatchAndName` of `config.go`.  The `log.Printf` call
before the final `return` writes to the process log only and has no influence
on the returned pair. -/
def Matcher.MatchAndName (m : Matcher) (nacl : ProcAttributes) : Bool × String :=
  if m.Comm ≠ "" ∧ m.Comm ≠ nacl.Name then
    (false, m.Name)
  else if m.User ≠ "" ∧ m.User ≠ nacl.Username then
    (false, m.Name)
  else if m.Ppid ≠ 0 ∧ m.Ppid ≠ nacl.PPID then
    (false, m.Name)
  else if m.Cmdline ≠ "" ∧ ¬ (stringsContains (stringsJoin nacl.Cmdline " ") m.Cmdline = true) then
    (false, m.Name)
  else
    (true, m.Name)

/-- The loop of `(*Config).MatchAndName` over the remaining matchers. -/
def matchLoop : List Matcher → ProcAttributes → Bool × String
  | [], _ => (false, "")
  | m :: rest, nacl =>
    if (m.MatchAndName nacl).1 = true then
      (true, (m.MatchAndName nacl).2)
    else
      matchLoop rest nacl

/-- The method `(*Config).MatchAndName` of `config.go`. -/
def Config.MatchAndName (c : Config) (nacl : ProcAttributes) : Bool × String :=
  matchLoop c.Matchers nacl

/-- A process with the given command name and arguments and default values
elsewhere; used to build concrete inputs. -/
def procOf (pid : Int) (comm : String) (args : List String) : ProcAttributes :=
  { PID := pid, PPID := 1, StartTime := 0, Name := comm, Cmdline := args,
    Username := "root", counters := ⟨0, 0, 0, 0⟩, residentBytes := 0,
    openFDs := 0, numThreads := 1 }

/-! ## What the specification says about a single rule -/

/-- The text `sub` occurs in `s` as a contiguous run of characters, compared
character by character (hence case-sensitively): `s = pre ++ sub ++ post` for
some `pre` and `post`. -/
def IsSubstring (sub s : String) : Prop :=
  sub.toList <:+: s.toList

instance instDecidableIsSubstring (sub s : String) : Decidable (IsSubstring sub s) :=
  inferInstanceAs (Decidable (sub.toList <:+: s.toList))

/-- Every non-wildcard filter of rule `m` is satisfied by process `p`: `Comm`
and `User` by exact equality, `Ppid` by integer equality, `Cmdline` as a
substring of the arguments joined by single spaces.  An empty string, and the
value `0` for `Ppid`, is a wildcard. -/
def FiltersSatisfied (m : Matcher) (p : ProcAttributes) : Prop :=
  (m.Comm = "" ∨ m.Comm = p.Name) ∧
  (m.User = "" ∨ m.User = p.Username) ∧
  (m.Ppid = 0 ∨ m.Ppid = p.PPID) ∧
  (m.Cmdline = "" ∨ IsSubstring m.Cmdline (stringsJoin p.Cmdline " "))

instance instDecidableFiltersSatisfied (m : Matcher) (p : ProcAttributes) :
    Decidable (FiltersSatisfied m p) :=
  inferInstanceAs (Decidable (_ ∧ _ ∧ _ ∧ _))

/-! ## Loading the configuration (`config.go`) -/

/-- A Go `error` value of the configuration loader; `none` of
`Option ConfigError` is the `nil` error. -/
inductive ConfigError where
  /-- The value of `fmt.Errorf("error reading config file %q: %v", cfgpath, err)`. -/
  | reading (cfgpath : String) (cause : String)
  /-- The error of `yaml.Unmarshal`, returned unchanged. -/
  | yaml (cause : String)
  deriving DecidableEq, Repr

/-- The two library calls the loader makes, as functions of their arguments:
`ioutil.ReadFile` returns the content and an error, `yaml.Unmarshal` fills a
zero `Config` from the content and returns an error. -/
structure Library where
  ioutilReadFile : String → String × Option String
  yamlUnmarshal : String → Config × Option String

/-- The function `GetConfig` of `config.go`.  The first component is the
returned `*Config` (`none` is `nil`), the second the returned `error`. -/
def GetConfig (lib : Library) (content : String) (_debug : Bool) :
    Option Config × Option ConfigError :=
  match lib.yamlUnmarshal content with
  | (_, some err) => (none, some (ConfigError.yaml err))
  | (cfg, none) => (some cfg, none)

/-- The function `ReadFile` of `config.go`.  The `log.Printf` under `debug`
writes to the process log only. -/
def ReadFile (lib : Library) (cfgpath : String) (debug : Bool) :
    Option Config × Option ConfigError :=
  match lib.ioutilReadFile cfgpath with
  | (_, some err) => (none, some (ConfigError.reading cfgpath err))
  | (content, none) => GetConfig lib content debug

/-! ## Start-up (`main.go`) -/

/-- The flag variables of `main`, after `flag.Parse()`. -/
structure Flags where
  listenAddress : String
  metricsPath : String
  onceToStdoutDelay : Int
  procfsPath : String
  children : Bool
  threads : Bool
  smaps : Bool
  configPath : String
  tlsConfigFile : String
  recheck : Bool
  debug : Bool
  showVersion : Bool
  deriving DecidableEq, Repr

/-- The default values given in the `flag.String`, `flag.Duration` and
`flag.Bool` declarations of `main`. -/
def flagDefaults : Flags :=
  { listenAddress := ":9256", metricsPath := "/metrics", onceToStdoutDelay := 0,
    procfsPath := "/proc", children := false, threads := true, smaps := true,
    configPath := "config.yml", tlsConfigFile := "", recheck := false,
    debug := false, showVersion := false }

/-- One flag given on the command line, with its parsed value. -/
inductive FlagSetting where
  | listenAddress (v : String)
  | metricsPath (v : String)
  | onceToStdoutDelay (v : Int)
  | procfsPath (v : String)
  | children (v : Bool)
  | threads (v : Bool)
  | smaps (v : Bool)
  | configPath (v : String)
  | tlsConfigFile (v : String)
  | recheck (v : Bool)
  | debug (v : Bool)
  | showVersion (v : Bool)
  deriving DecidableEq, Repr

/-- The effect of one command-line flag on the flag variables. -/
def FlagSetting.apply (f : Flags) : FlagSetting → Flags
  | .listenAddress v => { f with listenAddress := v }
  | .metricsPath v => { f with metricsPath := v }
  | .onceToStdoutDelay v => { f with onceToStdoutDelay := v }
  | .procfsPath v => { f with procfsPath := v }
  | .children v => { f with children := v }
  | .threads v => { f with threads := v }
  | .smaps v => { f with smaps := v }
  | .configPath v => { f with configPath := v }
  | .tlsConfigFile v => { f with tlsConfigFile := v }
  | .recheck v => { f with recheck := v }
  | .debug v => { f with debug := v }
  | .showVersion v => { f with showVersion := v }

/-- The call `flag.Parse()`: every flag variable holds its default unless the
command line sets it; a later setting of the same flag overrides an earlier. -/
def flagParse (given : List FlagSetting) : Flags :=
  given.foldl FlagSetting.apply flagDefaults

/-- The command line sets the `-children` flag. -/
def FlagSetting.isChildren : FlagSetting → Bool
  | .children _ => true
  | _ => false

/-- The default of the `-children` option that the usage text of `printManual`
states: "The -children option (default:true) makes it so that ...". -/
def printManualChildrenDefault : Bool := true

/-- The struct `collector.ProcessCollectorOption` as `main` fills it. -/
structure ProcessCollectorOption where
  ProcFSPath : String
  Children : Bool
  Threads : Bool
  GatherSMaps : Bool
  Namer : Config
  Recheck : Bool
  Debug : Bool
  deriving DecidableEq, Repr

/-- How far `main` gets before it hands over to the collector. -/
inductive Startup where
  /-- The branch `if *showVersion`: print the version, `os.Exit(0)`. -/
  | versionPrinted
  /-- The call `log.Fatalf("error reading config file %q: %v", ...)`, which
  ends the process. -/
  | fatal (cfgpath : String) (err : ConfigError)
  /-- The loop `for _, m := range cfg.Matchers` on a `nil` `cfg`: a run-time
  panic. -/
  | nilConfig
  /-- The call `collector.NewProcessCollector` with these options. -/
  | newProcessCollector (opts : ProcessCollectorOption)
  deriving DecidableEq, Repr

/-- The function `main` of `main.go` up to the call of
`collector.NewProcessCollector`. -/
def mainStartup (lib : Library) (given : List FlagSetting) : Startup :=
  let flags := flagParse given
  if flags.showVersion then
    Startup.versionPrinted
  else
    match ReadFile lib flags.configPath flags.debug with
    | (_, some err) => Startup.fatal flags.configPath err
    | (none, none) => Startup.nilConfig
    | (some cfg, none) => Startup.newProcessCollector
        { ProcFSPath := flags.procfsPath, Children := flags.children,
          Threads := flags.threads, GatherSMaps := flags.smaps,
          Namer := cfg, Recheck := flags.recheck, Debug := flags.debug }

/-- Child roll-up is enabled in the options that reach the collector. -/
def Startup.childrenEnabled : Startup → Bool
  | .newProcessCollector opts => opts.Children
  | _ => false

/-- A library in which every file reads as one rule `{name: web, comm: nginx}`. -/
def demoLibrary : Library :=
  { ioutilReadFile := fun _ => ("matchers:\n- name: web\n  comm: nginx\n", none),
    yamlUnmarshal := fun _ => (⟨[⟨"web", "nginx", "", 0, ""⟩]⟩, none) }

/-- A library in which no file can be read. -/
def unreadableLibrary : Library :=
  { ioutilReadFile := fun _ => ("", some "no such file or directory"),
    yamlUnmarshal := fun _ => (⟨[]⟩, none) }

/-- A library in which every file reads but does not parse as YAML. -/
def malformedLibrary : Library :=
  { ioutilReadFile := fun _ => ("matchers: [", none),
    yamlUnmarshal := fun _ => (⟨[]⟩, some "yaml: line 1: did not find expected node content") }

/-! ## The group accumulator (specification section 4.3) -/

/-- The counters that are all zero. -/
def Counts.zero : Counts := ⟨0, 0, 0, 0⟩

/-- Counter-wise addition. -/
def Counts.add (a b : Counts) : Counts :=
  ⟨a.cpuUser + b.cpuUser, a.cpuSystem + b.cpuSystem,
   a.readBytes + b.readBytes, a.writeBytes + b.writeBytes⟩

/-- Every counter of `a` is at most the same counter of `b`. -/
def Counts.le (a b : Counts) : Prop :=
  a.cpuUser ≤ b.cpuUser ∧ a.cpuSystem ≤ b.cpuSystem ∧
  a.readBytes ≤ b.readBytes ∧ a.writeBytes ≤ b.writeBytes

instance instDecidableCountsLe (a b : Counts) : Decidable (Counts.le a b) :=
  inferInstanceAs (Decidable (_ ∧ _ ∧ _ ∧ _))

/-- The counter-wise sum of a list of counters. -/
def Counts.sum (l : List Counts) : Counts :=
  l.foldr Counts.add Counts.zero

/-- Modelled from the spec: the identity of a process, the compound key
`(PID, StartTime)` that tells a process from a later one reusing its pid. -/
structure Identity where
  PID : Int
  StartTime : Nat
  deriving DecidableEq, Repr

/-- The identity of an observed process. -/
def ProcAttributes.identity (p : ProcAttributes) : Identity :=
  ⟨p.PID, p.StartTime⟩

/-- Modelled from the spec: `TrackedProcess`, the persistent state kept per
identity (the tracker of the collector is not part of the source files): the
assigned group name, the last-observed raw counters and the last-observed
scrape time. -/
structure TrackedProcess where
  id : Identity
  group : String
  lastCounters : Counts
  lastSeen : Nat
  deriving DecidableEq, Repr

/-- One entry of the input of a scrape: a process of the current snapshot with
the group name the tree walker resolved for it.  Processes the walker left
unmatched are dropped and do not appear. -/
structure Resolved where
  attrs : ProcAttributes
  group : String
  deriving DecidableEq, Repr

/-- Modelled from the spec: the state of the `GroupAccumulator` (not part of
the source files): the tracked processes, whose `group` fields give the live
set of every group, and the accumulated baseline of every group, which is zero
for a group no process has been folded into. -/
structure Accumulator where
  tracked : List TrackedProcess
  baseline : String → Counts

/-- The state at the start of the exporter: nothing tracked, no baseline. -/
def Accumulator.init : Accumulator :=
  ⟨[], fun _ => Counts.zero⟩

/-- The tracked process with the given identity, if any. -/
def findTracked (tracked : List TrackedProcess) (id : Identity) : Option TrackedProcess :=
  tracked.find? (fun t => decide (t.id = id))

/-- The identity is present in the snapshot (step 1 of the algorithm). -/
def observedIn (snapshot : List Resolved) (id : Identity) : Bool :=
  snapshot.any (fun r => decide (r.attrs.identity = id))

/-- Modelled from the spec: steps 2 and 3 of the accumulator, for one observed
process.  A continuing process has its `lastCounters` overwritten with the
fresh absolute values; its group is fixed at first observation when `recheck`
is disabled and is the newly resolved one when `recheck` is enabled (it then
contributes to the live set of the new group from its current absolute
values).  A new process is created in its resolved group, seeded with its
first-observed values. -/
def track (recheck : Bool) (now : Nat) (prior : List TrackedProcess) (r : Resolved) :
    TrackedProcess :=
  match findTracked prior r.attrs.identity with
  | some t =>
      { t with group := if recheck then r.group else t.group,
               lastCounters := r.attrs.counters, lastSeen := now }
  | none =>
      { id := r.attrs.identity, group := r.group,
        lastCounters := r.attrs.counters, lastSeen := now }

/-- The entry of the snapshot with the given identity, if any. -/
def observation (snapshot : List Resolved) (id : Identity) : Option Resolved :=
  snapshot.find? (fun r => decide (r.attrs.identity = id))

/-- Modelled from the spec: a tracked process leaves the live set of its group
at this scrape when it is absent from the snapshot (step 4, the process
exited) or when `recheck` is enabled and its resolved group name changed
(step 2, it is removed from the live set of the old group). -/
def leavesGroup (recheck : Bool) (snapshot : List Resolved) (t : TrackedProcess) : Bool :=
  match observation snapshot t.id with
  | none => true
  | some r => recheck && !decide (r.group = t.group)

/-- The tracked processes that leave the live set of their group at this
scrape. -/
def departedOf (recheck : Bool) (prior : List TrackedProcess) (snapshot : List Resolved) :
    List TrackedProcess :=
  prior.filter (leavesGroup recheck snapshot)

/-- The sum of `lastCounters` over the members of group `g` in a list of
tracked processes. -/
def liveSum (tracked : List TrackedProcess) (g : String) : Counts :=
  Counts.sum ((tracked.filter (fun t => decide (t.group = g))).map (fun t => t.lastCounters))

/-- Modelled from the spec: one scrape of the accumulator (steps 1 to 4): every
observed process is refreshed or created, and every process that leaves the
live set of its group has its last-known counters folded into the baseline of
that group (`baseline += lastCounters`).  For an exited process this is step
4; for a reclassified process it is what keeps the total of the old group
("subtract nothing from the old group", "no counters are lost"), the exposed
value of every group staying `baseline + sum over live members`. -/
def scrape (recheck : Bool) (now : Nat) (st : Accumulator) (snapshot : List Resolved) :
    Accumulator :=
  { tracked := snapshot.map (track recheck now st.tracked),
    baseline := fun g =>
      (st.baseline g).add (liveSum (departedOf recheck st.tracked snapshot) g) }

/-- Modelled from the spec: the exposed value of a group (step 5),
`baseline + sum(lastCounters over all live members)`. -/
def exposed (st : Accumulator) (g : String) : Counts :=
  (st.baseline g).add (liveSum st.tracked g)

/-- A sequence of scrapes, each with its time and snapshot, from a state. -/
def runScrapes (recheck : Bool) : Accumulator → List (Nat × List Resolved) → Accumulator
  | st, [] => st
  | st, s :: rest => runScrapes recheck (scrape recheck s.1 st s.2) rest

/-- An observed process with the given pid, start time, command name and CPU
user time, resolved to the given group. -/
def resolvedOf (pid : Int) (start : Nat) (comm : String) (cpu : Nat) (group : String) :
    Resolved :=
  { attrs := { PID := pid, PPID := 1, StartTime := start, Name := comm, Cmdline := [comm],
               Username := "root", counters := ⟨cpu, 0, 0, 0⟩, residentBytes := 0,
               openFDs := 0, numThreads := 1 },
    group := group }

/-! ## Lemmas on the string functions -/

theorem indexFrom_nonneg_iff (sub s : List Char) (i : Int) (hi : 0 ≤ i) :
    0 ≤ indexFrom sub s i ↔ sub <:+: s := by
  induction s generalizing i with
  | nil =>
    simp only [indexFrom]
    split
    · rename_i h
      simp [hi, List.isPrefixOf_iff_prefix] at h ⊢
      simp [h]
    · rename_i h
      simp [List.isPrefixOf_iff_prefix] at h ⊢
      exact h
  | cons c t ih =>
    simp only [indexFrom]
    split
    · rename_i h
      rw [List.isPrefixOf_iff_prefix] at h
      simp [hi, h.isInfix]
    · rename_i h
      rw [List.isPrefixOf_iff_prefix] at h
      rw [ih (i + 1) (by omega), List.infix_cons_iff]
      simp [h]

theorem isSubstring_iff_exists (sub s : String) :
    IsSubstring sub s ↔ ∃ pre post : List Char, s.toList = pre ++ sub.toList ++ post := by
  unfold IsSubstring List.IsInfix
  constructor
  · rintro ⟨pre, post, h⟩
    exact ⟨pre, post, h.symm⟩
  · rintro ⟨pre, post, h⟩
    exact ⟨pre, post, h.symm⟩

theorem stringsContains_iff (s sub : String) :
    stringsContains s sub = true ↔ IsSubstring sub s := by
  unfold stringsContains stringsIndex IsSubstring
  rw [decide_eq_true_iff]
  exact indexFrom_nonneg_iff sub.toList s.toList 0 (le_refl 0)

/-! ## Lemmas on a single rule -/

theorem Matcher.matchAndName_snd (m : Matcher) (p : ProcAttributes) :
    (m.MatchAndName p).2 = m.Name := by
  unfold Matcher.MatchAndName
  split_ifs <;> rfl

theorem Matcher.matchAndName_fst_iff (m : Matcher) (p : ProcAttributes) :
    (m.MatchAndName p).1 = true ↔ FiltersSatisfied m p := by
  unfold Matcher.MatchAndName FiltersSatisfied
  rw [← stringsContains_iff]
  split_ifs with h1 h2 h3 h4 <;> simp only [Bool.false_eq_true, false_iff, true_iff] <;> tauto

theorem Matcher.matchAndName_fst_false_iff (m : Matcher) (p : ProcAttributes) :
    (m.MatchAndName p).1 = false ↔ ¬ FiltersSatisfied m p := by
  rw [← Matcher.matchAndName_fst_iff, Bool.not_eq_true]

/-! ## Lemmas on the rule list -/

theorem matchLoop_cons_matched (m : Matcher) (rest : List Matcher) (p : ProcAttributes)
    (h : FiltersSatisfied m p) : matchLoop (m :: rest) p = (true, m.Name) := by
  have h1 : (m.MatchAndName p).1 = true := (Matcher.matchAndName_fst_iff m p).2 h
  simp [matchLoop, h1, Matcher.matchAndName_snd]

theorem matchLoop_cons_unmatched (m : Matcher) (rest : List Matcher) (p : ProcAttributes)
    (h : ¬ FiltersSatisfied m p) : matchLoop (m :: rest) p = matchLoop rest p := by
  have h1 : (m.MatchAndName p).1 = false := (Matcher.matchAndName_fst_false_iff m p).2 h
  simp [matchLoop, h1]

theorem matchLoop_first_match (rules : List Matcher) (p : ProcAttributes) (i : Nat)
    (hi : i < rules.length) (hm : FiltersSatisfied (rules.get ⟨i, hi⟩) p)
    (hbefore : ∀ j (hj : j < i), ¬ FiltersSatisfied (rules.get ⟨j, lt_trans hj hi⟩) p) :
    matchLoop rules p = (true, (rules.get ⟨i, hi⟩).Name) := by
  induction rules generalizing i with
  | nil => exact absurd hi (Nat.not_lt_zero i)
  | cons m rest ih =>
    cases i with
    | zero => exact matchLoop_cons_matched m rest p hm
    | succ k =>
      have h0 : ¬ FiltersSatisfied m p := hbefore 0 (Nat.succ_pos k)
      rw [matchLoop_cons_unmatched m rest p h0]
      have hk : k < rest.length := Nat.lt_of_succ_lt_succ hi
      exact ih k hk hm (fun j hj => hbefore (j + 1) (Nat.succ_lt_succ hj))

theorem matchLoop_no_match (rules : List Matcher) (p : ProcAttributes)
    (h : ∀ m ∈ rules, ¬ FiltersSatisfied m p) : matchLoop rules p = (false, "") := by
  induction rules with
  | nil => rfl
  | cons m rest ih =>
    rw [matchLoop_cons_unmatched m rest p (h m (List.mem_cons_self m rest))]
    exact ih (fun r hr => h r (List.mem_cons_of_mem m hr))

theorem filtersSatisfied_congr (m : Matcher) (p q : ProcAttributes)
    (hn : p.Name = q.Name) (hu : p.Username = q.Username) (hp : p.PPID = q.PPID)
    (hc : stringsJoin p.Cmdline " " = stringsJoin q.Cmdline " ") :
    FiltersSatisfied m p ↔ FiltersSatisfied m q := by
  unfold FiltersSatisfied
  rw [hn, hu, hp, hc]

theorem Matcher.matchAndName_congr (m : Matcher) (p q : ProcAttributes)
    (hn : p.Name = q.Name) (hu : p.Username = q.Username) (hp : p.PPID = q.PPID)
    (hc : stringsJoin p.Cmdline " " = stringsJoin q.Cmdline " ") :
    m.MatchAndName p = m.MatchAndName q := by
  unfold Matcher.MatchAndName
  rw [hn, hu, hp, hc]

theorem matchLoop_congr (rules : List Matcher) (p q : ProcAttributes)
    (hn : p.Name = q.Name) (hu : p.Username = q.Username) (hp : p.PPID = q.PPID)
    (hc : stringsJoin p.Cmdline " " = stringsJoin q.Cmdline " ") :
    matchLoop rules p = matchLoop rules q := by
  induction rules with
  | nil => rfl
  | cons m rest ih =>
    simp only [matchLoop, Matcher.matchAndName_congr m p q hn hu hp hc, ih]

/-! ## The namer: claims C1 to C5, C8 and C10 -/

/-- C1 (first match wins): if the rule at index `i` has all its non-wildcard
filters satisfied by the process and no rule at an index `j < i` has, then
`Config.MatchAndName` returns `(true, rules[i].Name)`, whatever the rules
after index `i` are. -/
theorem config_first_match_wins (rules : List Matcher) (p : ProcAttributes) (i : Nat)
    (hi : i < rules.length)
    (hmatch : FiltersSatisfied (rules.get ⟨i, hi⟩) p)
    (hbefore : ∀ j (hj : j < i), ¬ FiltersSatisfied (rules.get ⟨j, lt_trans hj hi⟩) p) :
    Config.MatchAndName ⟨rules⟩ p = (true, (rules.get ⟨i, hi⟩).Name) :=
  matchLoop_first_match rules p i hi hmatch hbefore

/-- Witness for C1: the second of three rules is the first that matches
`nginx`, and a third rule that matches as well does not change the result. -/
theorem config_first_match_wins_witness :
    Config.MatchAndName
        ⟨[⟨"db", "postgres", "", 0, ""⟩, ⟨"web", "nginx", "", 0, ""⟩, ⟨"any", "", "", 0, ""⟩]⟩
        (procOf 1 "nginx" ["nginx", "-g"]) = (true, "web") :=
  config_first_match_wins
    [⟨"db", "postgres", "", 0, ""⟩, ⟨"web", "nginx", "", 0, ""⟩, ⟨"any", "", "", 0, ""⟩]
    (procOf 1 "nginx" ["nginx", "-g"]) 1 (by decide) (by decide)
    (fun j hj => by
      have h0 : j = 0 := by omega
      subst h0
      show ¬ FiltersSatisfied ⟨"db", "postgres", "", 0, ""⟩ (procOf 1 "nginx" ["nginx", "-g"])
      decide)

/-- C2 (no match): if no rule of the list, which may be empty, has its filters
satisfied by the process, `Config.MatchAndName` returns exactly `(false, "")`;
with the rules `[{name: web, comm: nginx}]` the process `nginx` yields
`(true, "web")` and the process `bash` yields `(false, "")`. -/
theorem config_no_match (rules : List Matcher) (p : ProcAttributes)
    (hnone : ∀ m ∈ rules, ¬ FiltersSatisfied m p) :
    Config.MatchAndName ⟨rules⟩ p = (false, "") ∧
    Config.MatchAndName ⟨[]⟩ p = (false, "") ∧
    Config.MatchAndName ⟨[⟨"web", "nginx", "", 0, ""⟩]⟩ (procOf 1 "nginx" []) = (true, "web") ∧
    Config.MatchAndName ⟨[⟨"web", "nginx", "", 0, ""⟩]⟩ (procOf 2 "bash" []) = (false, "") :=
  ⟨matchLoop_no_match rules p hnone, rfl, by decide, by decide⟩

/-- Witness for C2: the rule `{name: web, comm: nginx}` and the process `bash`. -/
theorem config_no_match_witness :
    (∀ m ∈ [(⟨"web", "nginx", "", 0, ""⟩ : Matcher)], ¬ FiltersSatisfied m (procOf 2 "bash" [])) ∧
    Config.MatchAndName ⟨[⟨"web", "nginx", "", 0, ""⟩]⟩ (procOf 2 "bash" []) = (false, "") :=
  ⟨by decide,
   (config_no_match [⟨"web", "nginx", "", 0, ""⟩] (procOf 2 "bash" []) (by decide)).1⟩

/-- C3 (single rule): `Matcher.MatchAndName` reports a match exactly when
`Comm` is empty or equals the process name, `User` is empty or equals the
user name, `Ppid` is `0` or equals the parent pid, and `Cmdline` is empty or a
substring of the arguments joined by single spaces; and when it matches, the
returned name is `m.Name`. -/
theorem matcher_match_iff (m : Matcher) (p : ProcAttributes) :
    ((m.MatchAndName p).1 = true ↔
      ((m.Comm = "" ∨ m.Comm = p.Name) ∧
       (m.User = "" ∨ m.User = p.Username) ∧
       (m.Ppid = 0 ∨ m.Ppid = p.PPID) ∧
       (m.Cmdline = "" ∨
        ∃ pre post : List Char,
          (stringsJoin p.Cmdline " ").toList = pre ++ m.Cmdline.toList ++ post))) ∧
    ((m.MatchAndName p).1 = true → (m.MatchAndName p).2 = m.Name) := by
  refine ⟨?_, fun _ => Matcher.matchAndName_snd m p⟩
  rw [Matcher.matchAndName_fst_iff, FiltersSatisfied, isSubstring_iff_exists]

/-- Witness for C3: a rule with all four filters set and a process that
satisfies them. -/
theorem matcher_match_iff_witness :
    (Matcher.MatchAndName ⟨"web", "nginx", "root", 1, "-g daemon"⟩
      (procOf 7 "nginx" ["nginx", "-g", "daemon off;"])).2 = "web" :=
  (matcher_match_iff ⟨"web", "nginx", "root", 1, "-g daemon"⟩
    (procOf 7 "nginx" ["nginx", "-g", "daemon off;"])).2 (by decide)

/-- C4 (wildcards): for each filter field on its own, if the field of the rule
is empty (`Comm`, `User`, `Cmdline` the empty string, `Ppid` the value `0`)
then the result of the rule does not change when the corresponding attribute
of the process (`Name`, `Username`, `Cmdline`, `PPID`) is replaced by any
other value; and a rule whose four filters are all empty matches every
process. -/
theorem matcher_wildcard (m : Matcher) (p : ProcAttributes) :
    (m.Comm = "" → ∀ n : String,
      m.MatchAndName { p with Name := n } = m.MatchAndName p) ∧
    (m.User = "" → ∀ u : String,
      m.MatchAndName { p with Username := u } = m.MatchAndName p) ∧
    (m.Ppid = 0 → ∀ k : Int,
      m.MatchAndName { p with PPID := k } = m.MatchAndName p) ∧
    (m.Cmdline = "" → ∀ a : List String,
      m.MatchAndName { p with Cmdline := a } = m.MatchAndName p) ∧
    (m.Comm = "" → m.User = "" → m.Ppid = 0 → m.Cmdline = "" →
      (m.MatchAndName p).1 = true) := by
  refine ⟨?_, ?_, ?_, ?_, ?_⟩
  · intro h n
    simp [Matcher.MatchAndName, h]
  · intro h u
    simp [Matcher.MatchAndName, h]
  · intro h k
    simp [Matcher.MatchAndName, h]
  · intro h a
    simp [Matcher.MatchAndName, h]
  · intro h1 h2 h3 h4
    simp [Matcher.MatchAndName, h1, h2, h3, h4]

/-- Witness for C4: a rule with an empty `Comm` gives the same result when the
process is renamed, and the rule with no filter at all matches. -/
theorem matcher_wildcard_witness :
    Matcher.MatchAndName ⟨"u", "", "root", 0, ""⟩
        { procOf 3 "bash" ["bash"] with Name := "zsh" } =
      Matcher.MatchAndName ⟨"u", "", "root", 0, ""⟩ (procOf 3 "bash" ["bash"]) ∧
    (Matcher.MatchAndName ⟨"all", "", "", 0, ""⟩ (procOf 3 "bash" ["bash"])).1 = true :=
  ⟨(matcher_wildcard ⟨"u", "", "root", 0, ""⟩ (procOf 3 "bash" ["bash"])).1 rfl "zsh",
   (matcher_wildcard ⟨"all", "", "", 0, ""⟩ (procOf 3 "bash" ["bash"])).2.2.2.2 rfl rfl rfl rfl⟩

/-- C5 (command-line filter): a rule whose only non-empty filter is `Cmdline`
matches a process exactly when the filter text occurs as a contiguous run of
characters in the arguments joined by single spaces; so `a b` matches the
arguments `a`, `b` across the argument boundary, and `NGINX` does not match
the argument `nginx`. -/
theorem cmdline_filter_semantics (m : Matcher) (p : ProcAttributes)
    (hcomm : m.Comm = "") (huser : m.User = "") (hppid : m.Ppid = 0) :
    ((m.MatchAndName p).1 = true ↔
      ∃ pre post : List Char,
        (stringsJoin p.Cmdline " ").toList = pre ++ m.Cmdline.toList ++ post) ∧
    (Matcher.MatchAndName ⟨"x", "", "", 0, "a b"⟩ (procOf 1 "sh" ["a", "b"])).1 = true ∧
    (Matcher.MatchAndName ⟨"x", "", "", 0, "NGINX"⟩ (procOf 1 "nginx" ["nginx"])).1 = false := by
  refine ⟨?_, by decide, by decide⟩
  rw [Matcher.matchAndName_fst_iff, FiltersSatisfied, ← isSubstring_iff_exists]
  constructor
  · rintro ⟨-, -, -, h | h⟩
    · rw [IsSubstring, h]
      exact List.nil_infix
    · exact h
  · intro h
    exact ⟨Or.inl hcomm, Or.inl huser, Or.inl hppid, Or.inr h⟩

/-- Witness for C5: the filter `-g daemon` spans two arguments of `nginx`. -/
theorem cmdline_filter_semantics_witness :
    (Matcher.MatchAndName ⟨"web", "", "", 0, "-g daemon"⟩
        (procOf 7 "nginx" ["nginx", "-g", "daemon off;"])).1 = true ↔
      ∃ pre post : List Char,
        (stringsJoin ["nginx", "-g", "daemon off;"] " ").toList =
          pre ++ "-g daemon".toList ++ post :=
  (cmdline_filter_semantics ⟨"web", "", "", 0, "-g daemon"⟩
    (procOf 7 "nginx" ["nginx", "-g", "daemon off;"]) rfl rfl rfl).1

/-- C8 fails as stated: the rule `{name: web, comm: nginx}` does not match the
process `bash`, and `Matcher.MatchAndName` returns `(false, "web")`, which is
not `(false, "")`. -/
theorem matcher_no_match_counterexample :
    ¬ FiltersSatisfied ⟨"web", "nginx", "", 0, ""⟩ (procOf 2 "bash" []) ∧
    Matcher.MatchAndName ⟨"web", "nginx", "", 0, ""⟩ (procOf 2 "bash" []) = (false, "web") ∧
    Matcher.MatchAndName ⟨"web", "nginx", "", 0, ""⟩ (procOf 2 "bash" []) ≠ (false, "") := by
  decide

/-- C8 as amended: for every rule `m` and every process `p` that `m` does not
match, `Matcher.MatchAndName` returns `(false, m.Name)`: the flag is false and
the name is the name of the rule, not the empty string. -/
theorem matcher_no_match (m : Matcher) (p : ProcAttributes)
    (hno : ¬ FiltersSatisfied m p) : m.MatchAndName p = (false, m.Name) := by
  have h1 : (m.MatchAndName p).1 = false := (Matcher.matchAndName_fst_false_iff m p).2 hno
  have h2 : (m.MatchAndName p).2 = m.Name := Matcher.matchAndName_snd m p
  exact Prod.ext h1 h2

/-- Witness for the amended C8. -/
theorem matcher_no_match_witness :
    Matcher.MatchAndName ⟨"web", "nginx", "", 0, ""⟩ (procOf 2 "bash" []) = (false, "web") :=
  matcher_no_match ⟨"web", "nginx", "", 0, ""⟩ (procOf 2 "bash" []) (by decide)

/-- C10 (noninterference): two processes that agree on `Name`, `Username`,
`PPID` and on the single-space join of their `Cmdline` arguments get the same
result from `Config.MatchAndName` for every rule list, whatever their `PID`,
start time and resource counters. -/
theorem config_noninterference (c : Config) (p q : ProcAttributes)
    (hname : p.Name = q.Name) (huser : p.Username = q.Username) (hppid : p.PPID = q.PPID)
    (hjoin : stringsJoin p.Cmdline " " = stringsJoin q.Cmdline " ") :
    c.MatchAndName p = c.MatchAndName q :=
  matchLoop_congr c.Matchers p q hname huser hppid hjoin

/-- Witness for C10: the argument lists `["a b"]` and `["a", "b"]`, with
different pid, start time, counters and gauges. -/
theorem config_noninterference_witness :
    Config.MatchAndName ⟨[⟨"ab", "", "", 0, "a b"⟩]⟩
        { PID := 10, PPID := 1, StartTime := 5, Name := "sh", Cmdline := ["a b"],
          Username := "root", counters := ⟨1, 2, 3, 4⟩, residentBytes := 9,
          openFDs := 3, numThreads := 1 } =
      Config.MatchAndName ⟨[⟨"ab", "", "", 0, "a b"⟩]⟩
        { PID := 11, PPID := 1, StartTime := 8, Name := "sh", Cmdline := ["a", "b"],
          Username := "root", counters := ⟨50, 60, 70, 80⟩, residentBytes := 0,
          openFDs := 7, numThreads := 4 } :=
  config_noninterference ⟨[⟨"ab", "", "", 0, "a b"⟩]⟩ _ _ rfl rfl rfl (by decide)

/-! ## Start-up: claims C7 and C9 -/

theorem getConfig_cases (lib : Library) (content : String) (debug : Bool) :
    (∀ e, (lib.yamlUnmarshal content).2 = some e →
      GetConfig lib content debug = (none, some (ConfigError.yaml e))) ∧
    ((lib.yamlUnmarshal content).2 = none →
      GetConfig lib content debug = (some (lib.yamlUnmarshal content).1, none)) := by
  unfold GetConfig
  rcases h : lib.yamlUnmarshal content with ⟨cfg, _ | err⟩
  · simp
  · simp

theorem getConfig_exclusive (lib : Library) (content : String) (debug : Bool) :
    (GetConfig lib content debug).1.isSome = !(GetConfig lib content debug).2.isSome := by
  unfold GetConfig
  rcases h : lib.yamlUnmarshal content with ⟨cfg, _ | err⟩ <;> rfl

theorem readFile_exclusive (lib : Library) (cfgpath : String) (debug : Bool) :
    (ReadFile lib cfgpath debug).1.isSome = !(ReadFile lib cfgpath debug).2.isSome := by
  unfold ReadFile
  rcases h : lib.ioutilReadFile cfgpath with ⟨content, _ | err⟩
  · exact getConfig_exclusive lib content debug
  · rfl

theorem flagParse_foldl_children (given : List FlagSetting) (f : Flags)
    (hno : given.all (fun s => !s.isChildren) = true) :
    (given.foldl FlagSetting.apply f).children = f.children := by
  induction given generalizing f with
  | nil => rfl
  | cons s rest ih =>
    rw [List.all_cons, Bool.and_eq_true] at hno
    rw [List.foldl_cons, ih _ hno.2]
    cases s <;> first | rfl | simp [FlagSetting.isChildren] at hno

/-- C7, evaluated on the code: started without a `-children` flag, the flag
variable holds `false` and the options that reach the collector have
`Children = false`, while the usage text of `printManual` states
`default:true`. -/
theorem children_default_is_false :
    (flagParse []).children = false ∧
    (∀ lib : Library, (mainStartup lib []).childrenEnabled = false) ∧
    (∀ (lib : Library) (given : List FlagSetting),
      given.all (fun s => !s.isChildren) = true →
      (mainStartup lib given).childrenEnabled = false) ∧
    mainStartup demoLibrary [] = Startup.newProcessCollector
      { ProcFSPath := "/proc", Children := false, Threads := true, GatherSMaps := true,
        Namer := ⟨[⟨"web", "nginx", "", 0, ""⟩]⟩, Recheck := false, Debug := false } ∧
    printManualChildrenDefault = true := by
  have key : ∀ (lib : Library) (given : List FlagSetting),
      given.all (fun s => !s.isChildren) = true →
      (mainStartup lib given).childrenEnabled = false := by
    intro lib given hno
    have hc : (flagParse given).children = false :=
      flagParse_foldl_children given flagDefaults hno
    unfold mainStartup
    simp only []
    split_ifs
    · rfl
    · split
      · rfl
      · rfl
      · simp [Startup.childrenEnabled, hc]
  exact ⟨rfl, fun lib => key lib [] rfl, key, by decide, rfl⟩

/-- C9 (loading never yields a rule set together with a failure): `ReadFile`
returns an error and no `Config` when the file cannot be read; `GetConfig`
returns an error and no `Config` when the content does not parse, and
otherwise the parsed `Config` and no error, which is then also the result of
`ReadFile`; each of the two returns a `Config` exactly when it returns no
error; and `main` reaches the construction of the collector only with the
`Config` that `ReadFile` returned without an error. -/
theorem config_loading_exclusive (lib : Library) (given : List FlagSetting)
    (cfgpath content : String) (debug : Bool) :
    (∀ e, (lib.ioutilReadFile cfgpath).2 = some e →
      ReadFile lib cfgpath debug = (none, some (ConfigError.reading cfgpath e))) ∧
    (∀ e, (lib.yamlUnmarshal content).2 = some e →
      GetConfig lib content debug = (none, some (ConfigError.yaml e))) ∧
    ((lib.yamlUnmarshal content).2 = none →
      GetConfig lib content debug = (some (lib.yamlUnmarshal content).1, none)) ∧
    ((lib.ioutilReadFile cfgpath).2 = none →
      ReadFile lib cfgpath debug = GetConfig lib (lib.ioutilReadFile cfgpath).1 debug) ∧
    (GetConfig lib content debug).1.isSome = !(GetConfig lib content debug).2.isSome ∧
    (ReadFile lib cfgpath debug).1.isSome = !(ReadFile lib cfgpath debug).2.isSome ∧
    (∀ opts, mainStartup lib given = Startup.newProcessCollector opts →
      ReadFile lib (flagParse given).configPath (flagParse given).debug =
        (some opts.Namer, none)) := by
  refine ⟨?_, (getConfig_cases lib content debug).1, (getConfig_cases lib content debug).2,
    ?_, getConfig_exclusive lib content debug, readFile_exclusive lib cfgpath debug, ?_⟩
  · intro e he
    unfold ReadFile
    rcases h : lib.ioutilReadFile cfgpath with ⟨c, _ | err⟩
    · rw [h] at he
      cases he
    · rw [h] at he
      cases he
      rfl
  · intro he
    unfold ReadFile
    rcases h : lib.ioutilReadFile cfgpath with ⟨c, _ | err⟩
    · rfl
    · rw [h] at he
      cases he
  · intro opts hopts
    unfold mainStartup at hopts
    simp only [] at hopts
    split_ifs at hopts
    rcases h : ReadFile lib (flagParse given).configPath (flagParse given).debug
      with ⟨_ | cfg, _ | err⟩
    · rw [h] at hopts
      cases hopts
    · rw [h] at hopts
      cases hopts
    · rw [h] at hopts
      simp only [Startup.newProcessCollector.injEq] at hopts
      rw [← hopts]
    · rw [h] at hopts
      cases hopts

/-- Witness for C9: an unreadable file gives an error and no `Config`, content
that does not parse gives an error and no `Config`, and a file that loads
reaches the collector with the parsed rules. -/
theorem config_loading_exclusive_witness :
    ReadFile unreadableLibrary "config.yml" false =
      (none, some (ConfigError.reading "config.yml" "no such file or directory")) ∧
    GetConfig malformedLibrary "matchers: [" false =
      (none, some (ConfigError.yaml "yaml: line 1: did not find expected node content")) ∧
    ReadFile demoLibrary "config.yml" false = (some ⟨[⟨"web", "nginx", "", 0, ""⟩]⟩, none) :=
  ⟨(config_loading_exclusive unreadableLibrary [] "config.yml" "" false).1 _ rfl,
   (config_loading_exclusive malformedLibrary [] "" "matchers: [" false).2.1 _ rfl,
   (config_loading_exclusive demoLibrary [] "" "" false).2.2.2.2.2.2
     { ProcFSPath := "/proc", Children := false, Threads := true, GatherSMaps := true,
       Namer := ⟨[⟨"web", "nginx", "", 0, ""⟩]⟩, Recheck := false, Debug := false }
     (by decide)⟩

/-! ## The accumulator: lemmas -/

theorem counts_sum_proj (f : Counts → Nat) (hzero : f Counts.zero = 0)
    (hadd : ∀ a b, f (Counts.add a b) = f a + f b) (l : List Counts) :
    f (Counts.sum l) = (l.map f).sum := by
  induction l with
  | nil => simpa [Counts.sum] using hzero
  | cons a rest ih =>
    have h : Counts.sum (a :: rest) = Counts.add a (Counts.sum rest) := rfl
    rw [h, hadd, ih, List.map_cons, List.sum_cons]

theorem liveSum_proj (f : Counts → Nat) (hzero : f Counts.zero = 0)
    (hadd : ∀ a b, f (Counts.add a b) = f a + f b) (ts : List TrackedProcess) (g : String) :
    f (liveSum ts g) =
      (ts.map (fun t => if t.group = g then f t.lastCounters else 0)).sum := by
  unfold liveSum
  rw [counts_sum_proj f hzero hadd, List.map_map]
  induction ts with
  | nil => rfl
  | cons t rest ih =>
    by_cases hg : t.group = g
    · simp only [List.filter_cons, hg, decide_True, if_true, List.map_cons, List.sum_cons,
        Function.comp_apply]
      rw [ih]
    · simp only [List.filter_cons, hg, decide_False, Bool.false_eq_true, if_false,
        List.map_cons, List.sum_cons, Nat.zero_add]
      rw [ih]

theorem sum_split_by (c : TrackedProcess → Bool) (w : TrackedProcess → Nat)
    (ts : List TrackedProcess) :
    (ts.map w).sum =
      (ts.map (fun t => if c t = true then w t else 0)).sum +
      (ts.map (fun t => if c t = true then 0 else w t)).sum := by
  induction ts with
  | nil => rfl
  | cons t rest ih =>
    simp only [List.map_cons, List.sum_cons, ih]
    cases hc : c t
    · simp only [Bool.false_eq_true, if_false]
      omega
    · simp only [if_true]
      omega

theorem sum_at_identity_le (w : TrackedProcess → Nat) (i : Identity) (b : Nat)
    (ts : List TrackedProcess) (hnodup : (ts.map (fun t => t.id)).Nodup)
    (hle : ∀ t ∈ ts, t.id = i → w t ≤ b) :
    (ts.map (fun t => if t.id = i then w t else 0)).sum ≤ b := by
  induction ts with
  | nil => simp
  | cons t rest ih =>
    rw [List.map_cons, List.nodup_cons] at hnodup
    simp only [List.map_cons, List.sum_cons]
    by_cases ht : t.id = i
    · have hrest : (rest.map (fun t => if t.id = i then w t else 0)).sum = 0 := by
        apply List.sum_eq_zero
        intro x hx
        rw [List.mem_map] at hx
        obtain ⟨u, hu, hux⟩ := hx
        have hne : u.id ≠ i := by
          intro hui
          apply hnodup.1
          rw [List.mem_map]
          exact ⟨u, hu, by rw [hui, ht]⟩
        rw [if_neg hne] at hux
        exact hux.symm
      rw [hrest, if_pos ht]
      exact hle t (List.mem_cons_self t rest) ht
    · rw [if_neg ht, Nat.zero_add]
      exact ih hnodup.2 (fun u hu => hle u (List.mem_cons_of_mem t hu))

theorem observed_sum_le (w : TrackedProcess → Nat) (v : Resolved → Nat)
    (ts : List TrackedProcess) (snapshot : List Resolved)
    (hnodup : (ts.map (fun t => t.id)).Nodup)
    (hle : ∀ t ∈ ts, ∀ r ∈ snapshot, r.attrs.identity = t.id → w t ≤ v r) :
    (ts.map (fun t => if observedIn snapshot t.id = true then w t else 0)).sum ≤
      (snapshot.map v).sum := by
  induction snapshot with
  | nil => simp [observedIn]
  | cons r rest ih =>
    have hrest := ih (fun t ht q hq => hle t ht q (List.mem_cons_of_mem r hq))
    have hhead := sum_at_identity_le w r.attrs.identity (v r) ts hnodup
      (fun t ht hid => hle t ht r (List.mem_cons_self r rest) hid.symm)
    have hsplit : (ts.map (fun t => if observedIn (r :: rest) t.id = true then w t else 0)).sum ≤
        (ts.map (fun t => if t.id = r.attrs.identity then w t else 0)).sum +
        (ts.map (fun t => if observedIn rest t.id = true then w t else 0)).sum := by
      clear hrest hhead hle hnodup ih
      induction ts with
      | nil => simp
      | cons t more ih2 =>
        simp only [List.map_cons, List.sum_cons]
        have hobs : observedIn (r :: rest) t.id =
            (decide (r.attrs.identity = t.id) || observedIn rest t.id) := rfl
        rw [hobs]
        by_cases h1 : r.attrs.identity = t.id
        · have h1s : t.id = r.attrs.identity := h1.symm
          have hd : decide (r.attrs.identity = t.id) = true := decide_eq_true h1
          rw [hd, if_pos h1s]
          simp only [Bool.true_or, if_true]
          split_ifs <;> omega
        · have h1s : ¬ t.id = r.attrs.identity := fun h => h1 h.symm
          have hd : decide (r.attrs.identity = t.id) = false := decide_eq_false h1
          rw [hd, if_neg h1s]
          simp only [Bool.false_or]
          split_ifs <;> omega
    simp only [List.map_cons, List.sum_cons]
    omega

theorem sum_filter_by (c : TrackedProcess → Bool) (w : TrackedProcess → Nat)
    (ts : List TrackedProcess) :
    ((ts.filter c).map w).sum =
      (ts.map (fun t => if c t = true then w t else 0)).sum := by
  induction ts with
  | nil => rfl
  | cons t rest ih =>
    cases hc : c t
    · simp only [List.filter_cons, hc, Bool.false_eq_true, if_false, List.map_cons,
        List.sum_cons, Nat.zero_add]
      rw [ih]
    · simp only [List.filter_cons, hc, if_true, List.map_cons, List.sum_cons]
      rw [ih]

theorem observation_of_mem (snapshot : List Resolved)
    (hnodup : (snapshot.map (fun r => r.attrs.identity)).Nodup) (r : Resolved)
    (hr : r ∈ snapshot) : observation snapshot r.attrs.identity = some r := by
  cases h : observation snapshot r.attrs.identity with
  | none =>
    unfold observation at h
    rw [List.find?_eq_none] at h
    exact absurd (decide_eq_true rfl) (h r hr)
  | some q =>
    unfold observation at h
    have hq : q ∈ snapshot := List.mem_of_find?_eq_some h
    have hp := List.find?_some h
    have hid : q.attrs.identity = r.attrs.identity := of_decide_eq_true hp
    rw [List.inj_on_of_nodup_map hnodup hq hr hid]

theorem leavesGroup_of_unobserved (recheck : Bool) (snapshot : List Resolved)
    (t : TrackedProcess) (h : observedIn snapshot t.id = false) :
    leavesGroup recheck snapshot t = true := by
  have hnone : observation snapshot t.id = none := by
    unfold observation
    rw [List.find?_eq_none]
    intro r hr hp
    unfold observedIn at h
    rw [List.any_eq_false] at h
    exact h r hr hp
  unfold leavesGroup
  rw [hnone]

theorem track_id (recheck : Bool) (now : Nat) (prior : List TrackedProcess) (r : Resolved) :
    (track recheck now prior r).id = r.attrs.identity := by
  unfold track
  cases h : findTracked prior r.attrs.identity with
  | none => rfl
  | some t =>
    unfold findTracked at h
    have hp := List.find?_some h
    exact of_decide_eq_true hp

theorem track_lastCounters (recheck : Bool) (now : Nat) (prior : List TrackedProcess)
    (r : Resolved) : (track recheck now prior r).lastCounters = r.attrs.counters := by
  unfold track
  cases findTracked prior r.attrs.identity <;> rfl

theorem findTracked_of_mem (prior : List TrackedProcess)
    (hnodup : (prior.map (fun t => t.id)).Nodup) (t : TrackedProcess) (ht : t ∈ prior) :
    findTracked prior t.id = some t := by
  cases h : findTracked prior t.id with
  | none =>
    unfold findTracked at h
    rw [List.find?_eq_none] at h
    exact absurd (decide_eq_true rfl) (h t ht)
  | some u =>
    unfold findTracked at h
    have hu : u ∈ prior := List.mem_of_find?_eq_some h
    have hp := List.find?_some h
    have hid : u.id = t.id := of_decide_eq_true hp
    rw [List.inj_on_of_nodup_map hnodup hu ht hid]

theorem track_group_of_mem (recheck : Bool) (now : Nat) (prior : List TrackedProcess)
    (hnodup : (prior.map (fun t => t.id)).Nodup) (t : TrackedProcess) (ht : t ∈ prior)
    (r : Resolved) (hid : r.attrs.identity = t.id) :
    (track recheck now prior r).group = if recheck = true then r.group else t.group := by
  unfold track
  rw [hid, findTracked_of_mem prior hnodup t ht]

theorem scrape_tracked_ids (recheck : Bool) (now : Nat) (st : Accumulator)
    (snapshot : List Resolved) :
    (scrape recheck now st snapshot).tracked.map (fun t => t.id) =
      snapshot.map (fun r => r.attrs.identity) := by
  unfold scrape
  simp only [List.map_map]
  apply List.map_congr_left
  intro r _
  exact track_id recheck now st.tracked r

theorem runScrapes_append (recheck : Bool) (st : Accumulator)
    (earlier : List (Nat × List Resolved)) (s : Nat × List Resolved) :
    runScrapes recheck st (earlier ++ [s]) =
      scrape recheck s.1 (runScrapes recheck st earlier) s.2 := by
  induction earlier generalizing st with
  | nil => rfl
  | cons e rest ih => exact ih (scrape recheck e.1 st e.2)

theorem runScrapes_nodup (recheck : Bool) (st : Accumulator)
    (earlier : List (Nat × List Resolved))
    (hst : (st.tracked.map (fun t => t.id)).Nodup)
    (hsnaps : ∀ s ∈ earlier, (s.2.map (fun r => r.attrs.identity)).Nodup) :
    ((runScrapes recheck st earlier).tracked.map (fun t => t.id)).Nodup := by
  induction earlier generalizing st with
  | nil => exact hst
  | cons e rest ih =>
    apply ih
    · rw [scrape_tracked_ids]
      exact hsnaps e (List.mem_cons_self e rest)
    · exact fun s hs => hsnaps s (List.mem_cons_of_mem e hs)

theorem exposed_proj_mono (f : Counts → Nat) (hzero : f Counts.zero = 0)
    (hadd : ∀ a b, f (Counts.add a b) = f a + f b)
    (recheck : Bool) (now : Nat) (st : Accumulator) (snapshot : List Resolved) (g : String)
    (hnodup : (st.tracked.map (fun t => t.id)).Nodup)
    (hsnap : (snapshot.map (fun r => r.attrs.identity)).Nodup)
    (hkernel : ∀ t ∈ st.tracked, ∀ r ∈ snapshot, r.attrs.identity = t.id →
      f t.lastCounters ≤ f r.attrs.counters) :
    f (exposed st g) ≤ f (exposed (scrape recheck now st snapshot) g) := by
  have hobs := observed_sum_le
    (fun t => if leavesGroup recheck snapshot t = true then 0
      else if t.group = g then f t.lastCounters else 0)
    (fun r => if (track recheck now st.tracked r).group = g
      then f (track recheck now st.tracked r).lastCounters else 0)
    st.tracked snapshot hnodup
    (by
      intro t ht r hr hid
      show (if leavesGroup recheck snapshot t = true then 0
          else if t.group = g then f t.lastCounters else 0) ≤
        (if (track recheck now st.tracked r).group = g
          then f (track recheck now st.tracked r).lastCounters else 0)
      by_cases hl : leavesGroup recheck snapshot t = true
      · rw [if_pos hl]
        exact Nat.zero_le _
      · have hstay : (recheck && !decide (r.group = t.group)) = false := by
          have h := hl
          unfold leavesGroup at h
          rw [← hid, observation_of_mem snapshot hsnap r hr] at h
          simpa using h
        have hgrp : (track recheck now st.tracked r).group = t.group := by
          rw [track_group_of_mem recheck now st.tracked hnodup t ht r hid]
          cases recheck
          · rfl
          · simp only [Bool.true_and, Bool.not_eq_false_eq_eq_true, decide_eq_true_eq]
              at hstay
            simp only [if_true]
            exact hstay
        rw [if_neg hl, hgrp, track_lastCounters]
        split_ifs
        · exact hkernel t ht r hr hid
        · exact le_refl 0)
  have hstay : (st.tracked.map (fun t => if leavesGroup recheck snapshot t = true then 0
      else if t.group = g then f t.lastCounters else 0)).sum =
      (st.tracked.map (fun t => if observedIn snapshot t.id = true then
        (if leavesGroup recheck snapshot t = true then 0
          else if t.group = g then f t.lastCounters else 0) else 0)).sum := by
    congr 1
    apply List.map_congr_left
    intro t _
    cases ho : observedIn snapshot t.id
    · rw [leavesGroup_of_unobserved recheck snapshot t ho]
      simp
    · simp
  have hsplit := sum_split_by (leavesGroup recheck snapshot)
    (fun t => if t.group = g then f t.lastCounters else 0) st.tracked
  unfold exposed scrape
  simp only [hadd, liveSum_proj f hzero hadd, departedOf, List.map_map]
  rw [sum_filter_by (leavesGroup recheck snapshot)
    (fun t => if t.group = g then f t.lastCounters else 0) st.tracked]
  simp only [Function.comp_def]
  simp only [] at hobs hsplit hstay
  omega

/-! ## The accumulator: claim C6 -/

/-- C6 (monotonicity of cumulative metrics): in a sequence of scrapes from the
start of the exporter, every cumulative counter (CPU user and system time,
bytes read and written) exposed for a group after a scrape is at least its
value before that scrape, whichever processes exited, restarted or were
reclassified in between and whether `recheck` is enabled or not.  The
hypotheses are those of the data model: a snapshot lists an identity
`(PID, StartTime)` at most once, and the kernel counters of a process do not
regress during its lifetime. -/
theorem cumulative_monotone (recheck : Bool) (earlier : List (Nat × List Resolved))
    (now : Nat) (snapshot : List Resolved) (g : String)
    (hsnaps : ∀ s ∈ earlier ++ [(now, snapshot)],
      (s.2.map (fun r => r.attrs.identity)).Nodup)
    (hkernel : ∀ t ∈ (runScrapes recheck Accumulator.init earlier).tracked,
      ∀ r ∈ snapshot, r.attrs.identity = t.id → Counts.le t.lastCounters r.attrs.counters) :
    Counts.le (exposed (runScrapes recheck Accumulator.init earlier) g)
      (exposed (runScrapes recheck Accumulator.init (earlier ++ [(now, snapshot)])) g) := by
  rw [runScrapes_append]
  have hnodup : ((runScrapes recheck Accumulator.init earlier).tracked.map
      (fun t => t.id)).Nodup :=
    runScrapes_nodup recheck Accumulator.init earlier List.nodup_nil
      (fun s hs => hsnaps s (List.mem_append_left _ hs))
  have hsnap : (snapshot.map (fun r => r.attrs.identity)).Nodup :=
    hsnaps (now, snapshot) (List.mem_append_right _ (List.mem_singleton_self _))
  exact ⟨
    exposed_proj_mono (fun c => c.cpuUser) rfl (fun _ _ => rfl) recheck now _ snapshot g
      hnodup hsnap (fun t ht r hr hid => (hkernel t ht r hr hid).1),
    exposed_proj_mono (fun c => c.cpuSystem) rfl (fun _ _ => rfl) recheck now _ snapshot g
      hnodup hsnap (fun t ht r hr hid => (hkernel t ht r hr hid).2.1),
    exposed_proj_mono (fun c => c.readBytes) rfl (fun _ _ => rfl) recheck now _ snapshot g
      hnodup hsnap (fun t ht r hr hid => (hkernel t ht r hr hid).2.2.1),
    exposed_proj_mono (fun c => c.writeBytes) rfl (fun _ _ => rfl) recheck now _ snapshot g
      hnodup hsnap (fun t ht r hr hid => (hkernel t ht r hr hid).2.2.2)⟩

/-- Witness for C6, with `recheck` enabled: between the two scrapes pid 5
exits and its pid is reused by a process with a later start time, pid 6
continues from 4 to 7 units, and pid 7 is reclassified from `batch` to `web`;
the exposed CPU time of `batch` goes from 17 to 21. -/
theorem cumulative_monotone_witness :
    exposed (runScrapes true Accumulator.init
        [(1, [resolvedOf 5 100 "job" 10 "batch", resolvedOf 6 100 "job" 4 "batch",
              resolvedOf 7 100 "job" 3 "batch"])]) "batch"
      = ⟨17, 0, 0, 0⟩ ∧
    exposed (runScrapes true Accumulator.init
        ([(1, [resolvedOf 5 100 "job" 10 "batch", resolvedOf 6 100 "job" 4 "batch",
               resolvedOf 7 100 "job" 3 "batch"])] ++
          [(2, [resolvedOf 6 100 "job" 7 "batch", resolvedOf 5 101 "job" 1 "batch",
                resolvedOf 7 100 "nginx" 5 "web"])])) "batch"
      = ⟨21, 0, 0, 0⟩ ∧
    Counts.le
      (exposed (runScrapes true Accumulator.init
        [(1, [resolvedOf 5 100 "job" 10 "batch", resolvedOf 6 100 "job" 4 "batch",
              resolvedOf 7 100 "job" 3 "batch"])]) "batch")
      (exposed (runScrapes true Accumulator.init
        ([(1, [resolvedOf 5 100 "job" 10 "batch", resolvedOf 6 100 "job" 4 "batch",
               resolvedOf 7 100 "job" 3 "batch"])] ++
          [(2, [resolvedOf 6 100 "job" 7 "batch", resolvedOf 5 101 "job" 1 "batch",
                resolvedOf 7 100 "nginx" 5 "web"])])) "batch") :=
  ⟨by decide, by decide,
   cumulative_monotone true
     [(1, [resolvedOf 5 100 "job" 10 "batch", resolvedOf 6 100 "job" 4 "batch",
           resolvedOf 7 100 "job" 3 "batch"])] 2
     [resolvedOf 6 100 "job" 7 "batch", resolvedOf 5 101 "job" 1 "batch",
      resolvedOf 7 100 "nginx" 5 "web"] "batch"
     (by decide) (by decide)⟩

end ProcessExporter
